import Mathlib

/-!
Shallow embedding of the ark-escrow-demo core (src/escrow.ts and the
ContractManager part of src/app.ts), together with theorems settling the
specification claims about it.

Conventions of the embedding:
* byte arrays (x-only public keys, PSBT byte payloads) are `List Nat`;
* pubkeys at the coordination layer (app.ts) are hex strings, embedded as
  `String`, exactly as the TypeScript stores them;
* fallible collaborator calls (key signing, chain query, chain submit,
  chain finalize, offchain-tx building) are fields of an `Env` record
  returning `Option`, so both the success and the failure branch of every
  call site can be analysed;
* in-place mutation of the shared contract record is embedded as explicit
  state passing: each operation returns the contract record as it is left
  in memory after the call, including after a caught exception;
* the source compares action names after `toLowerCase()`; the embedding
  takes the action argument in its lowercase canonical form ("fund",
  "release", "refund", "direct settle") and compares it directly, losing
  only the case-insensitivity of the action name.
-/

namespace ArkEscrow

/-! ## Part 1: escrow.ts — the VEscrow script factory -/

/-- A byte string (TypeScript `Bytes` / `Uint8Array`), one `Nat` per byte. -/
abbrev Bytes := List Nat

/-- `RelativeTimelock` from the SDK: the claims only depend on its value,
so it is embedded as the value. -/
abbrev RelativeTimelock := Nat

/-- `VEscrow.Options` from src/escrow.ts. -/
structure Options where
  buyer : Bytes
  seller : Bytes
  arbitrator : Bytes
  server : Bytes
  unilateralDelay : RelativeTimelock
deriving DecidableEq

/-- The two validation failures `VEscrow.validateOptions` can throw. -/
inductive EscrowError where
  | InvalidKeyLength (name : String) (got : Nat)
  | DuplicateKey
deriving DecidableEq

/-- `VEscrow.validateOptions` from src/escrow.ts: each of the four keys must
have length 32 (checked in the order buyer, seller, arbitrator, server), and
the set of the four hex-encoded keys must have size 4.  Hex encoding of byte
strings is injective, so the Set-of-hex-encodings size test is embedded as
the length of `List.dedup` over the byte strings themselves. -/
def validateOptions (o : Options) : Except EscrowError Unit :=
  if o.buyer.length ≠ 32 then .error (.InvalidKeyLength "buyer" o.buyer.length)
  else if o.seller.length ≠ 32 then .error (.InvalidKeyLength "seller" o.seller.length)
  else if o.arbitrator.length ≠ 32 then .error (.InvalidKeyLength "arbitrator" o.arbitrator.length)
  else if o.server.length ≠ 32 then .error (.InvalidKeyLength "server" o.server.length)
  else if ([o.buyer, o.seller, o.arbitrator, o.server].dedup).length ≠ 4 then
    .error .DuplicateKey
  else .ok ()

/-- Modelled from the spec: `MultisigTapscript.encode` and
`CSVMultisigTapscript.encode` come from the external `@arkade-os/sdk`
package, not from this repository.  Per the spec they produce the canonical
script encoding of a fixed-order multisig path, respectively of a
CSV-timelocked multisig path; distinct path descriptions have distinct
canonical encodings, so the encoding is embedded as a tagged value of the
key sequence (and timelock). -/
inductive Tapscript where
  | multisig (pubkeys : List Bytes)
  | csvMultisig (pubkeys : List Bytes) (timelock : RelativeTimelock)
deriving DecidableEq

/-- The data computed by the `VEscrow.Script` constructor: the six
spending-path scripts, plus the leaf list handed to the `VtxoScript`
superclass (in the source order). -/
structure EscrowScript where
  releaseScript : Tapscript
  refundScript : Tapscript
  directScript : Tapscript
  unilateralReleaseScript : Tapscript
  unilateralRefundScript : Tapscript
  unilateralDirectScript : Tapscript
  leaves : List Tapscript
deriving DecidableEq

namespace Script

/-- The six path scripts built by the `VEscrow.Script` constructor body,
after validation passed. -/
def build (o : Options) : EscrowScript :=
  let releaseScript := Tapscript.multisig [o.seller, o.arbitrator, o.server]
  let refundScript := Tapscript.multisig [o.buyer, o.arbitrator, o.server]
  let directScript := Tapscript.multisig [o.buyer, o.seller, o.server]
  let unilateralReleaseScript := Tapscript.csvMultisig [o.seller, o.arbitrator] o.unilateralDelay
  let unilateralRefundScript := Tapscript.csvMultisig [o.buyer, o.arbitrator] o.unilateralDelay
  let unilateralDirectScript := Tapscript.csvMultisig [o.buyer, o.seller] o.unilateralDelay
  { releaseScript, refundScript, directScript,
    unilateralReleaseScript, unilateralRefundScript, unilateralDirectScript,
    leaves := [releaseScript, refundScript, directScript,
               unilateralReleaseScript, unilateralRefundScript, unilateralDirectScript] }

/-- The `VEscrow.Script` constructor from src/escrow.ts: validate the
options (a throw propagates, producing no object), then build the six
fixed-order path scripts. -/
def make (o : Options) : Except EscrowError EscrowScript :=
  match validateOptions o with
  | .error e => .error e
  | .ok _ => .ok (build o)

/-- Modelled from the spec: the taproot address derivation lives in the
external `VtxoScript` superclass.  Per the spec the address is
content-addressed — a pure function of the committed leaf scripts — so it
is embedded as the committed leaf list itself. -/
def address (s : EscrowScript) : List Tapscript := s.leaves

end Script

/-- The six scripts of a constructed `EscrowScript`, in source order. -/
def sixScripts (s : EscrowScript) : List Tapscript :=
  [s.releaseScript, s.refundScript, s.directScript,
   s.unilateralReleaseScript, s.unilateralRefundScript, s.unilateralDirectScript]

/-! ## Part 2: app.ts — the ContractManager data model -/

/-- A contract party as stored in an `EscrowContract` (src/types.ts):
hex pubkey, display name and payout address. -/
structure Party where
  pubkey : String
  name : String
  addr : String
deriving DecidableEq

/-- The slice of `WalletInfo` the coordination layer reads: the pubkey.
Signing with `wallet.identity` is routed through the `Env` collaborators,
keyed by this pubkey. -/
structure WalletInfo where
  pubkey : String
deriving DecidableEq

/-- A VTXO reference as stored in a partial transaction. -/
structure Vtxo where
  txid : String
  vout : Nat
  value : Nat
deriving DecidableEq

/-- `partialTx` of a pending transaction (src/app.ts, lines 730-742). -/
structure PartialTx where
  vtxo : Vtxo
  arkTx : List Nat
  checkpoints : List (List Nat)
  requiredSigners : List String
  initiatorSigned : Bool
  approvals : List String
  rejections : List String
deriving DecidableEq

/-- The status values a pending transaction takes in src/app.ts. -/
inductive TxStatus where
  | pending_cosign
  | approved
  | rejected
deriving DecidableEq

/-- `pendingTransaction` of an `EscrowContract` (src/app.ts). -/
structure PendingTransaction where
  action : String
  initiator : String
  timestamp : Nat
  status : TxStatus
  partialTx : PartialTx
deriving DecidableEq

/-- The slice of `EscrowContract` the coordination operations read and
write: the three parties and the mutable `pendingTransaction` slot. -/
structure EscrowContract where
  buyer : Party
  seller : Party
  arbitrator : Party
  arkAddress : String
  pendingTransaction : Option PendingTransaction
deriving DecidableEq

/-- An output of the spend transaction built by `createOutputsForAction`:
amount in sats and the destination script.  `addressToScript` decodes an
Ark address to its pkScript through the external SDK; decoding is injective
on well-formed addresses, so the script is embedded as the address string
itself. -/
structure OutputM where
  amount : Nat
  script : String
deriving DecidableEq

/-- The external collaborators of the coordinator, each fallible
(`none` = the awaited call threw):
`signArk pk tx` is `wallet.identity.sign(arkTx)` for the wallet with pubkey
`pk`; `signCheckpoint pk tx` is `wallet.identity.sign(checkpoint, [0])`;
`vtxos` is the indexer answer `getVtxos` for the contract address;
`buildTx vtxo outputs` is `buildOffchainTx` returning the unsigned spend tx
bytes and checkpoint bytes; `submitTx` and `finalizeTx` are the Ark
provider calls of the execution phase. -/
structure Env where
  signArk : String → List Nat → Option (List Nat)
  signCheckpoint : String → List Nat → Option (List Nat)
  vtxos : List Vtxo
  buildTx : Vtxo → List OutputM → Option (List Nat × List (List Nat))
  submitTx : List Nat → List (List Nat) → Option String
  finalizeTx : String → List (List Nat) → Option Unit

/-- `getUserRole` from src/app.ts: match the pubkey against the three
contract parties. -/
def getUserRole (c : EscrowContract) (pubkey : String) : Option String :=
  if pubkey = c.buyer.pubkey then some "buyer"
  else if pubkey = c.seller.pubkey then some "seller"
  else if pubkey = c.arbitrator.pubkey then some "arbitrator"
  else none

/-- `getRequiredSignersForAction` from src/app.ts: the static
action-to-signers table, guarded by the initiator role; an unknown action
or an ineligible role yields the empty list. -/
def getRequiredSignersForAction (action : String) (c : EscrowContract)
    (w : WalletInfo) : List String :=
  let currentUserRole := getUserRole c w.pubkey
  if action = "fund" then
    if currentUserRole = some "buyer" then [c.buyer.pubkey] else []
  else if action = "release" then
    if currentUserRole = some "seller" ∨ currentUserRole = some "arbitrator" then
      [c.seller.pubkey, c.arbitrator.pubkey] else []
  else if action = "refund" then
    if currentUserRole = some "buyer" ∨ currentUserRole = some "arbitrator" then
      [c.buyer.pubkey, c.arbitrator.pubkey] else []
  else if action = "direct settle" then
    if currentUserRole = some "buyer" ∨ currentUserRole = some "seller" then
      [c.buyer.pubkey, c.seller.pubkey] else []
  else []

/-- `createOutputsForAction` from src/app.ts: release pays everything to the
seller, refund everything to the buyer, direct settle splits
`Math.floor(amount / 2)` to the buyer and the remainder to the seller;
any other action throws. -/
def createOutputsForAction (action : String) (c : EscrowContract)
    (amount : Nat) : Except String (List OutputM) :=
  if action = "release" then
    .ok [{ amount := amount, script := c.seller.addr }]
  else if action = "refund" then
    .ok [{ amount := amount, script := c.buyer.addr }]
  else if action = "direct settle" then
    let halfAmount := amount / 2
    .ok [{ amount := halfAmount, script := c.buyer.addr },
         { amount := amount - halfAmount, script := c.seller.addr }]
  else .error action

/-! ## Part 3: app.ts — the coordination operations -/

/-- Outcome of `executeContractAction`, one constructor per exit of the
source function (notifications shown resp. exceptions caught there). -/
inductive ActionResult where
  | AlreadyFunded
  | FundingSent
  | NoFunds
  | NotAuthorized
  | BuildFailed
  | SignFailed
  | Created
deriving DecidableEq

/-- `createEscrowTransaction` from src/app.ts: compute the action outputs
over the funding VTXO value and hand them with the input to the external
`buildOffchainTx`; a throw anywhere is `none`.  (The spending-path lookup
preceding the output computation fails on exactly the same actions as
`createOutputsForAction`, so the two throw sites collapse to one.) -/
def createEscrowTransaction (env : Env) (c : EscrowContract) (action : String)
    (vtxo : Vtxo) : Option (List Nat × List (List Nat)) :=
  match createOutputsForAction action c vtxo.value with
  | .error _ => none
  | .ok outputs => env.buildTx vtxo outputs

/-- Sign each checkpoint transaction of the list with the wallet `pk`
(`Promise.all` over `identity.sign(checkpoint, [0])`): `none` as soon as
one signing call fails, in which case nothing is assigned back. -/
def signAllCheckpoints (env : Env) (pk : String) :
    List (List Nat) → Option (List (List Nat))
  | [] => some []
  | cp :: rest =>
    match env.signCheckpoint pk cp with
    | none => none
    | some scp =>
      match signAllCheckpoints env pk rest with
      | none => none
      | some srest => some (scp :: srest)

/-- The pending transaction object built at lines 725-743 of src/app.ts:
status `pending_cosign`, `requiredSigners` filtered of the initiator,
`approvals = [initiator]`, `rejections = []`. -/
def mkPendingTransaction (action : String) (initiatorPk : String) (ts : Nat)
    (vtxo : Vtxo) (signedArkTx : List Nat) (signedCheckpoints : List (List Nat))
    (requiredSigners : List String) : PendingTransaction :=
  { action := action
    initiator := initiatorPk
    timestamp := ts
    status := .pending_cosign
    partialTx :=
      { vtxo := vtxo
        arkTx := signedArkTx
        checkpoints := signedCheckpoints
        requiredSigners := requiredSigners.filter (fun pubkey => pubkey ≠ initiatorPk)
        initiatorSigned := true
        approvals := [initiatorPk]
        rejections := [] } }

/-- `executeContractAction` from src/app.ts (lines 671-754).  The `fund`
branch runs before any authorization or pending-transaction concern: with
funds present it fails `AlreadyFunded`, otherwise it delegates to a plain
wallet funding transfer and returns.  Every other action requires funds,
resolves the required signers (empty = `NotAuthorized`), builds and
initiator-signs the spend and checkpoint transactions, and overwrites
`pendingTransaction` with the fresh record — the current value of
`pendingTransaction` is never consulted. -/
def executeContractAction (env : Env) (c : EscrowContract) (action : String)
    (w : WalletInfo) (ts : Nat) : EscrowContract × ActionResult :=
  if action = "fund" then
    match env.vtxos with
    | _ :: _ => (c, .AlreadyFunded)
    | [] => (c, .FundingSent)
  else
    match env.vtxos with
    | [] => (c, .NoFunds)
    | vtxo :: _ =>
      let requiredSigners := getRequiredSignersForAction action c w
      if requiredSigners = [] then (c, .NotAuthorized)
      else
        match createEscrowTransaction env c action vtxo with
        | none => (c, .BuildFailed)
        | some (arkTx, checkpoints) =>
          match env.signArk w.pubkey arkTx with
          | none => (c, .SignFailed)
          | some signedArkTx =>
            match signAllCheckpoints env w.pubkey checkpoints with
            | none => (c, .SignFailed)
            | some signedCheckpoints =>
              let pt := mkPendingTransaction action w.pubkey ts vtxo
                signedArkTx signedCheckpoints requiredSigners
              ({ c with pendingTransaction := some pt }, .Created)

/-- `signTransactionsForUser` from src/app.ts (lines 794-854), which
mutates `partialTx` in place: the freshly signed spend transaction is
assigned to `partialTx.arkTx` BEFORE the checkpoints are signed, and the
checkpoints are assigned only after all of them signed.  The result is the
`partialTx` as left in memory, with `true` iff the whole call succeeded:
a spend-signing failure leaves it untouched, a checkpoint-signing failure
leaves the already-assigned new `arkTx` in place. -/
def signTransactionsForUser (env : Env) (pk : String) (p : PartialTx) :
    PartialTx × Bool :=
  match env.signArk pk p.arkTx with
  | none => (p, false)
  | some signedArkTx =>
    let p1 := { p with arkTx := signedArkTx }
    match signAllCheckpoints env pk p.checkpoints with
    | none => (p1, false)
    | some signedCheckpoints => ({ p1 with checkpoints := signedCheckpoints }, true)

/-- Outcome of `approvePendingTransaction`, one constructor per exit of the
source function. -/
inductive ApproveResult where
  | NoPending
  | NotRequired
  | AlreadyApproved
  | SignFailed
  | ExecuteFailed
  | WaitingMore
  | Executed
deriving DecidableEq

/-- Result of an approve/execute step: the contract record as left in
memory, the outcome, and how many `submitTx` resp. `finalizeTx` calls the
step performed. -/
structure StepOut where
  contract : EscrowContract
  result : ApproveResult
  submitCalls : Nat
  finalizeCalls : Nat
deriving DecidableEq

/-- `executeMultiSigTransaction` from src/app.ts (lines 1079-1137): submit
the stored spend transaction with the stored checkpoints, then finalize
with the same checkpoints; only full success clears `pendingTransaction`
to `undefined`; any throw is caught with the record left as it was. -/
def executeMultiSigTransaction (env : Env) (c : EscrowContract) : StepOut :=
  match c.pendingTransaction with
  | none => { contract := c, result := .NoPending, submitCalls := 0, finalizeCalls := 0 }
  | some pt =>
    match env.submitTx pt.partialTx.arkTx pt.partialTx.checkpoints with
    | none => { contract := c, result := .ExecuteFailed, submitCalls := 1, finalizeCalls := 0 }
    | some arkTxid =>
      match env.finalizeTx arkTxid pt.partialTx.checkpoints with
      | none => { contract := c, result := .ExecuteFailed, submitCalls := 1, finalizeCalls := 1 }
      | some _ =>
        { contract := { c with pendingTransaction := none }, result := .Executed,
          submitCalls := 1, finalizeCalls := 1 }

/-- `approvePendingTransaction` from src/app.ts (lines 1010-1077): guard
on a pending transaction existing, on `signer ∈ requiredSigners` and on
`signer ∉ approvals` (there is no guard on `rejections` and none on
`status`); then sign, append the approval, and recompute by membership
whether `requiredSigners ++ [initiator]` are all approved; if so execute,
otherwise keep waiting. -/
def approvePendingTransaction (env : Env) (c : EscrowContract)
    (w : WalletInfo) : StepOut :=
  match c.pendingTransaction with
  | none => { contract := c, result := .NoPending, submitCalls := 0, finalizeCalls := 0 }
  | some pt =>
    if w.pubkey ∉ pt.partialTx.requiredSigners then
      { contract := c, result := .NotRequired, submitCalls := 0, finalizeCalls := 0 }
    else if w.pubkey ∈ pt.partialTx.approvals then
      { contract := c, result := .AlreadyApproved, submitCalls := 0, finalizeCalls := 0 }
    else
      match signTransactionsForUser env w.pubkey pt.partialTx with
      | (p1, false) =>
        { contract := { c with pendingTransaction := some { pt with partialTx := p1 } },
          result := .SignFailed, submitCalls := 0, finalizeCalls := 0 }
      | (p1, true) =>
        let p2 := { p1 with approvals := p1.approvals ++ [w.pubkey] }
        let allRequiredSigners := p2.requiredSigners ++ [pt.initiator]
        let allApproved := allRequiredSigners.all (fun pubkey => pubkey ∈ p2.approvals)
        let c1 := { c with pendingTransaction := some { pt with partialTx := p2 } }
        if allApproved then executeMultiSigTransaction env c1
        else { contract := c1, result := .WaitingMore, submitCalls := 0, finalizeCalls := 0 }

/-- Outcome of `rejectPendingTransaction`. -/
inductive RejectResult where
  | NoPending
  | NotRequired
  | Rejected
deriving DecidableEq

/-- `rejectPendingTransaction` from src/app.ts (lines 1139-1170): guard on
a pending transaction existing and on `signer ∈ requiredSigners`; append
the signer to `rejections` unless already there (no failure either way, and
no guard on `approvals`); set `status = rejected` immediately.  The
`setTimeout` clearing the record after 3000 ms is embedded in the step
system below. -/
def rejectPendingTransaction (c : EscrowContract) (w : WalletInfo) :
    EscrowContract × RejectResult :=
  match c.pendingTransaction with
  | none => (c, .NoPending)
  | some pt =>
    if w.pubkey ∉ pt.partialTx.requiredSigners then (c, .NotRequired)
    else
      let p1 := if w.pubkey ∈ pt.partialTx.rejections then pt.partialTx
        else { pt.partialTx with rejections := pt.partialTx.rejections ++ [w.pubkey] }
      ({ c with pendingTransaction := some { pt with partialTx := p1, status := .rejected } },
       .Rejected)

/-! ## Part 4: operation sequences and the timed step system -/

/-- One coordination operation on a contract record: an approve call (with
the collaborator outcomes it sees) or a reject call. -/
inductive Op where
  | approve (env : Env) (w : WalletInfo)
  | reject (w : WalletInfo)

/-- Apply one operation to the contract record. -/
def applyOp (o : Op) (c : EscrowContract) : EscrowContract :=
  match o with
  | .approve env w => (approvePendingTransaction env c w).contract
  | .reject w => (rejectPendingTransaction c w).1

/-- Apply a sequence of operations, first operation first. -/
def applyOps (ops : List Op) (c : EscrowContract) : EscrowContract :=
  ops.foldl (fun c o => applyOp o c) c

/-- The grace delay of the `setTimeout` in `rejectPendingTransaction`,
in milliseconds. -/
def graceDelay : Nat := 3000

/-- A timed snapshot of one contract record: the record, the current clock
(ms), and the pending `setTimeout` deadline scheduled by the last reject,
if one is armed. -/
structure SysState where
  contract : EscrowContract
  now : Nat
  clearAt : Option Nat

/-- One step of the timed system: an approve call, a reject call (which
arms the clear timer at `now + graceDelay`), the passage of time, or the
timer firing — which clears `pendingTransaction` to `undefined`, and can
fire only once its deadline has been reached. -/
inductive SysStep where
  | approveStep (env : Env) (w : WalletInfo)
  | rejectStep (w : WalletInfo)
  | tick (dt : Nat)
  | timerFire

/-- Step semantics of the timed system. -/
def sysStep (st : SysStep) (s : SysState) : SysState :=
  match st with
  | .approveStep env w =>
    { s with contract := (approvePendingTransaction env s.contract w).contract }
  | .rejectStep w =>
    let r := rejectPendingTransaction s.contract w
    { s with contract := r.1,
             clearAt := if r.2 = .Rejected then some (s.now + graceDelay) else s.clearAt }
  | .tick dt => { s with now := s.now + dt }
  | .timerFire =>
    match s.clearAt with
    | some t =>
      if t ≤ s.now then
        { contract := { s.contract with pendingTransaction := none },
          now := s.now, clearAt := none }
      else s
    | none => s

/-- Run a sequence of timed steps, first step first. -/
def sysRun (steps : List SysStep) (s : SysState) : SysState :=
  steps.foldl (fun s st => sysStep st s) s

/-! ## Part 5: concrete instances used by witnesses and counterexamples -/

/-- A collaborator environment in which every call succeeds: signing
appends a signature byte, one VTXO of value 1000 funds the address,
building yields fixed bytes, submit yields a txid, finalize succeeds. -/
def envOK : Env :=
  { signArk := fun _ tx => some (tx ++ [7])
    signCheckpoint := fun _ tx => some (tx ++ [8])
    vtxos := [{ txid := "f0", vout := 0, value := 1000 }]
    buildTx := fun _ _ => some ([1, 2], [[3], [4]])
    submitTx := fun _ _ => some "txid1"
    finalizeTx := fun _ _ => some () }

/-- Like `envOK` but checkpoint signing fails. -/
def envCpFail : Env := { envOK with signCheckpoint := fun _ _ => none }

/-- Like `envOK` but chain submission fails. -/
def envSubmitFail : Env := { envOK with submitTx := fun _ _ => none }

/-- Like `envOK` but with no VTXO at the contract address. -/
def envNoFunds : Env := { envOK with vtxos := [] }

/-- A concrete contract: buyer key "B", seller key "S", arbitrator key "A",
no pending transaction. -/
def demoContract : EscrowContract :=
  { buyer := { pubkey := "B", name := "Bea", addr := "addrB" }
    seller := { pubkey := "S", name := "Sam", addr := "addrS" }
    arbitrator := { pubkey := "A", name := "Ann", addr := "addrA" }
    arkAddress := "ark1demo"
    pendingTransaction := none }

/-- A concrete partial transaction for a release initiated by the seller:
required co-signer "A", initiator "S" already approved. -/
def demoPartialTx : PartialTx :=
  { vtxo := { txid := "f0", vout := 0, value := 1000 }
    arkTx := [1, 2, 7]
    checkpoints := [[3, 8], [4, 8]]
    requiredSigners := ["A"]
    initiatorSigned := true
    approvals := ["S"]
    rejections := [] }

/-- `demoContract` carrying a pending release in state `pending_cosign`. -/
def demoPending : EscrowContract :=
  { demoContract with
    pendingTransaction := some
      { action := "release", initiator := "S", timestamp := 3,
        status := .pending_cosign, partialTx := demoPartialTx } }

/-- `demoPending` with the required co-signer "A" already in `rejections`
while the status still reads `pending_cosign`. -/
def demoPendingRejected : EscrowContract :=
  { demoContract with
    pendingTransaction := some
      { action := "release", initiator := "S", timestamp := 3,
        status := .pending_cosign,
        partialTx := { demoPartialTx with rejections := ["A"] } } }

/-! ## Part 6: helper lemmas -/

/-- A list deduplicates to its own length exactly when it has no
duplicates. -/
lemma length_dedup_eq_length_iff {α : Type} [DecidableEq α] (l : List α) :
    l.dedup.length = l.length ↔ l.Nodup := by
  constructor
  · intro h
    have hsub : List.Sublist l.dedup l := List.dedup_sublist l
    have hde : l.dedup = l := hsub.eq_of_length h
    rw [← hde]
    exact List.nodup_dedup l
  · intro h
    rw [List.dedup_eq_self.mpr h]

/-- The fields of `partialTx` other than the transaction byte payloads are
untouched by `signTransactionsForUser`, whether it succeeds or fails. -/
lemma signTransactionsForUser_fields (env : Env) (pk : String) (p : PartialTx) :
    (signTransactionsForUser env pk p).1.vtxo = p.vtxo ∧
    (signTransactionsForUser env pk p).1.requiredSigners = p.requiredSigners ∧
    (signTransactionsForUser env pk p).1.initiatorSigned = p.initiatorSigned ∧
    (signTransactionsForUser env pk p).1.approvals = p.approvals ∧
    (signTransactionsForUser env pk p).1.rejections = p.rejections := by
  unfold signTransactionsForUser
  cases h1 : env.signArk pk p.arkTx with
  | none => exact ⟨rfl, rfl, rfl, rfl, rfl⟩
  | some sa =>
    cases h2 : signAllCheckpoints env pk p.checkpoints with
    | none => exact ⟨rfl, rfl, rfl, rfl, rfl⟩
    | some cps => exact ⟨rfl, rfl, rfl, rfl, rfl⟩

/-- `executeMultiSigTransaction` leaves the contract record unchanged
unless it fully succeeds, in which case it only clears
`pendingTransaction`. -/
lemma executeMultiSigTransaction_contract (env : Env) (c : EscrowContract) :
    (executeMultiSigTransaction env c).contract = c ∨
    (executeMultiSigTransaction env c).contract = { c with pendingTransaction := none } := by
  cases hp : c.pendingTransaction with
  | none => exact .inl (by simp [executeMultiSigTransaction, hp])
  | some pt =>
    cases hs : env.submitTx pt.partialTx.arkTx pt.partialTx.checkpoints with
    | none => exact .inl (by simp [executeMultiSigTransaction, hp, hs])
    | some txid =>
      cases hf : env.finalizeTx txid pt.partialTx.checkpoints with
      | none => exact .inl (by simp [executeMultiSigTransaction, hp, hs, hf])
      | some u => exact .inr (by simp [executeMultiSigTransaction, hp, hs, hf])

/-! ## Part 7: the claims -/

/-- C6: for every input amount, the direct-settle spend transaction has
exactly two outputs, `amount / 2` (floor) to the buyer and the exact
remainder to the seller, so the outputs sum to the input amount; in
particular an amount of 101 splits as 50 to the buyer and 51 to the
seller. -/
theorem direct_settle_split_exact (c : EscrowContract) (amount : Nat) :
    createOutputsForAction "direct settle" c amount =
      .ok [{ amount := amount / 2, script := c.buyer.addr },
           { amount := amount - amount / 2, script := c.seller.addr }] ∧
    amount / 2 + (amount - amount / 2) = amount ∧
    createOutputsForAction "direct settle" c 101 =
      .ok [{ amount := 50, script := c.buyer.addr },
           { amount := 51, script := c.seller.addr }] := by
  refine ⟨rfl, ?_, rfl⟩
  omega

/-- C7: constructing the escrow script fails with an `InvalidKeyLength`
error when any of the four keys is not exactly 32 bytes, and fails with
`DuplicateKey` when all lengths are 32 but two of the four keys coincide;
in either case the constructor throws, so no contract object is
produced. -/
theorem script_construction_validates (o : Options) :
    ((o.buyer.length ≠ 32 ∨ o.seller.length ≠ 32 ∨ o.arbitrator.length ≠ 32 ∨
      o.server.length ≠ 32) →
      ∃ n g, Script.make o = .error (.InvalidKeyLength n g)) ∧
    (o.buyer.length = 32 → o.seller.length = 32 → o.arbitrator.length = 32 →
     o.server.length = 32 →
     (o.buyer = o.seller ∨ o.buyer = o.arbitrator ∨ o.buyer = o.server ∨
      o.seller = o.arbitrator ∨ o.seller = o.server ∨ o.arbitrator = o.server) →
      Script.make o = .error .DuplicateKey) := by
  constructor
  · intro h
    by_cases hb : o.buyer.length = 32
    · by_cases hs : o.seller.length = 32
      · by_cases ha : o.arbitrator.length = 32
        · by_cases hv : o.server.length = 32
          · exact absurd h (by simp [hb, hs, ha, hv])
          · exact ⟨"server", o.server.length,
              by simp [Script.make, validateOptions, hb, hs, ha, hv]⟩
        · exact ⟨"arbitrator", o.arbitrator.length,
            by simp [Script.make, validateOptions, hb, hs, ha]⟩
      · exact ⟨"seller", o.seller.length, by simp [Script.make, validateOptions, hb, hs]⟩
    · exact ⟨"buyer", o.buyer.length, by simp [Script.make, validateOptions, hb]⟩
  · intro hb hs ha hv hdup
    have hnodup : ¬ ([o.buyer, o.seller, o.arbitrator, o.server] : List Bytes).Nodup := by
      intro hn
      simp only [List.nodup_cons, List.mem_cons, List.mem_singleton,
        List.not_mem_nil, List.nodup_nil] at hn
      tauto
    have hlen4 : ([o.buyer, o.seller, o.arbitrator, o.server] : List Bytes).dedup.length ≠ 4 := by
      intro hl
      exact hnodup ((length_dedup_eq_length_iff
        ([o.buyer, o.seller, o.arbitrator, o.server] : List Bytes)).mp (by simpa using hl))
    simp [Script.make, validateOptions, hb, hs, ha, hv, hlen4]

/-- A 32-byte key of 1-bytes. -/
def keyOnes : Bytes := List.replicate 32 1

/-- A 32-byte key of 2-bytes. -/
def keyTwos : Bytes := List.replicate 32 2

/-- A 32-byte key of 3-bytes. -/
def keyThrees : Bytes := List.replicate 32 3

/-- A 32-byte key of 4-bytes. -/
def keyFours : Bytes := List.replicate 32 4

/-- Options with a 3-byte buyer key. -/
def optShortKey : Options :=
  { buyer := List.replicate 3 1, seller := keyTwos, arbitrator := keyThrees,
    server := keyFours, unilateralDelay := 144 }

/-- Options whose buyer and seller keys coincide (all lengths 32). -/
def optDupKey : Options :=
  { buyer := keyOnes, seller := keyOnes, arbitrator := keyThrees,
    server := keyFours, unilateralDelay := 144 }

/-- Witness instantiating C7: a 3-byte buyer key raises `InvalidKeyLength`,
and equal buyer and seller keys of length 32 raise `DuplicateKey`. -/
theorem script_construction_validates_witness :
    (∃ n g, Script.make optShortKey = .error (.InvalidKeyLength n g)) ∧
    Script.make optDupKey = .error .DuplicateKey :=
  ⟨(script_construction_validates optShortKey).1 (by decide),
   (script_construction_validates optDupKey).2 (by decide) (by decide) (by decide)
     (by decide) (Or.inl rfl)⟩

/-- C8: for four pairwise-distinct 32-byte keys and a timelock, the derived
contract address is a pure function of those inputs — two constructions
from field-wise equal options yield equal addresses — and the construction
succeeds with its six spending-path scripts pairwise distinct. -/
theorem script_address_deterministic_paths_distinct (o1 o2 : Options)
    (heq : o1.buyer = o2.buyer ∧ o1.seller = o2.seller ∧
           o1.arbitrator = o2.arbitrator ∧ o1.server = o2.server ∧
           o1.unilateralDelay = o2.unilateralDelay)
    (hb : o1.buyer.length = 32) (hs : o1.seller.length = 32)
    (ha : o1.arbitrator.length = 32) (hv : o1.server.length = 32)
    (hd : o1.buyer ≠ o1.seller ∧ o1.buyer ≠ o1.arbitrator ∧ o1.buyer ≠ o1.server ∧
          o1.seller ≠ o1.arbitrator ∧ o1.seller ≠ o1.server ∧
          o1.arbitrator ≠ o1.server) :
    Except.map Script.address (Script.make o1) = Except.map Script.address (Script.make o2) ∧
    Script.make o1 = .ok (Script.build o1) ∧
    List.Pairwise (fun x y => x ≠ y) (sixScripts (Script.build o1)) := by
  obtain ⟨h1, h2, h3, h4, h5⟩ := heq
  have ho : o1 = o2 := by
    cases o1; cases o2
    simp_all
  subst ho
  refine ⟨rfl, ?_, ?_⟩
  · have hnodup : ([o1.buyer, o1.seller, o1.arbitrator, o1.server] : List Bytes).Nodup := by
      simp only [List.nodup_cons, List.mem_cons, List.mem_singleton,
        List.not_mem_nil, List.nodup_nil]
      tauto
    have hlen4 : ([o1.buyer, o1.seller, o1.arbitrator, o1.server] : List Bytes).dedup.length = 4 := by
      simpa using (length_dedup_eq_length_iff
        ([o1.buyer, o1.seller, o1.arbitrator, o1.server] : List Bytes)).mpr hnodup
    simp [Script.make, validateOptions, hb, hs, ha, hv, hlen4]
  · obtain ⟨d1, d2, d3, d4, d5, d6⟩ := hd
    simp [sixScripts, Script.build, List.pairwise_cons]
    tauto

/-- Options with four pairwise-distinct 32-byte keys. -/
def optFourKeys : Options :=
  { buyer := keyOnes, seller := keyTwos, arbitrator := keyThrees,
    server := keyFours, unilateralDelay := 144 }

/-- Witness instantiating C8 at four concrete pairwise-distinct 32-byte
keys. -/
theorem script_address_deterministic_paths_distinct_witness :
    Except.map Script.address (Script.make optFourKeys) =
      Except.map Script.address (Script.make optFourKeys) ∧
    Script.make optFourKeys = .ok (Script.build optFourKeys) ∧
    List.Pairwise (fun x y => x ≠ y) (sixScripts (Script.build optFourKeys)) :=
  script_address_deterministic_paths_distinct optFourKeys optFourKeys
    ⟨rfl, rfl, rfl, rfl, rfl⟩ (by decide) (by decide) (by decide) (by decide)
    (by decide)

/-- `demoContract` carrying a pending release whose sole required
co-signer "A" has already approved. -/
def demoPendingApproved : EscrowContract :=
  { demoContract with
    pendingTransaction := some
      { action := "release", initiator := "S", timestamp := 3,
        status := .pending_cosign,
        partialTx := { demoPartialTx with approvals := ["S", "A"] } } }

/-- Counterexample to C1: the code has no `AlreadyRejected` guard in
`approvePendingTransaction` — on a pending transaction whose required
co-signer "A" is already in `rejections` (status reading `pending_cosign`),
the approve call by "A" proceeds, signs, and changes `approvals` instead of
failing with the state unchanged; and `rejectPendingTransaction` applies no
`AlreadyApproved` guard — "A", already in `approvals`, rejects
successfully. -/
theorem approve_reject_guards_cex :
    (demoPendingRejected.pendingTransaction.map fun pt => pt.partialTx.rejections)
      = some ["A"] ∧
    (demoPendingRejected.pendingTransaction.map fun pt => pt.partialTx.requiredSigners)
      = some ["A"] ∧
    (demoPendingRejected.pendingTransaction.map fun pt => pt.status)
      = some .pending_cosign ∧
    ((approvePendingTransaction envSubmitFail demoPendingRejected ⟨"A"⟩).contract.pendingTransaction.map
      fun pt => pt.partialTx.approvals) = some ["S", "A"] ∧
    (approvePendingTransaction envSubmitFail demoPendingRejected ⟨"A"⟩).result
      = .ExecuteFailed ∧
    (demoPendingApproved.pendingTransaction.map fun pt => pt.partialTx.approvals)
      = some ["S", "A"] ∧
    (rejectPendingTransaction demoPendingApproved ⟨"A"⟩).2 = .Rejected ∧
    ((rejectPendingTransaction demoPendingApproved ⟨"A"⟩).1.pendingTransaction.map
      fun pt => pt.partialTx.rejections) = some ["A"] := by
  decide

/-- C1 as amended: approve fails `NotRequired` when the signer is not a
required signer and `AlreadyApproved` when the signer is already in
`approvals`, leaving the record unchanged in both cases (there is no
`AlreadyRejected` guard); reject fails only `NotRequired`, also leaving the
record unchanged, and a duplicate rejection is not a failure — it leaves
`rejections` unchanged while re-setting the status to rejected. -/
theorem approve_reject_guards (env : Env) (c : EscrowContract) (w : WalletInfo)
    (pt : PendingTransaction) (hp : c.pendingTransaction = some pt) :
    (w.pubkey ∉ pt.partialTx.requiredSigners →
      approvePendingTransaction env c w =
        { contract := c, result := .NotRequired, submitCalls := 0, finalizeCalls := 0 } ∧
      rejectPendingTransaction c w = (c, .NotRequired)) ∧
    (w.pubkey ∈ pt.partialTx.requiredSigners → w.pubkey ∈ pt.partialTx.approvals →
      approvePendingTransaction env c w =
        { contract := c, result := .AlreadyApproved, submitCalls := 0, finalizeCalls := 0 }) ∧
    (w.pubkey ∈ pt.partialTx.requiredSigners → w.pubkey ∈ pt.partialTx.rejections →
      rejectPendingTransaction c w =
        ({ c with pendingTransaction := some { pt with status := .rejected } },
         .Rejected)) := by
  refine ⟨fun hreq => ⟨?_, ?_⟩, fun hreq happ => ?_, fun hreq hrej => ?_⟩
  · simp [approvePendingTransaction, hp, hreq]
  · simp [rejectPendingTransaction, hp, hreq]
  · simp [approvePendingTransaction, hp, hreq, happ]
  · simp [rejectPendingTransaction, hp, hreq, hrej]

/-- Witness instantiating the amended C1: "B" is not a required signer of
the demo pending release, so both approve and reject fail `NotRequired`
with the record unchanged; "A" has already approved, so a second approve
fails `AlreadyApproved`. -/
theorem approve_reject_guards_witness :
    (approvePendingTransaction envOK demoPending ⟨"B"⟩ =
       { contract := demoPending, result := .NotRequired, submitCalls := 0, finalizeCalls := 0 } ∧
     rejectPendingTransaction demoPending ⟨"B"⟩ = (demoPending, .NotRequired)) ∧
    approvePendingTransaction envOK demoPendingApproved ⟨"A"⟩ =
      { contract := demoPendingApproved, result := .AlreadyApproved,
        submitCalls := 0, finalizeCalls := 0 } :=
  ⟨(approve_reject_guards envOK demoPending ⟨"B"⟩ _ rfl).1 (by decide),
   (approve_reject_guards envOK demoPendingApproved ⟨"A"⟩ _ rfl).2.1 (by decide) (by decide)⟩

/-- Counterexample to C2: when checkpoint signing fails after the spend
transaction has been signed, the approve call fails but has already
assigned the newly signed spend-transaction bytes into the stored record —
the state is partially updated, not left as it was. -/
theorem approve_atomicity_cex :
    (demoPending.pendingTransaction.map fun pt => pt.partialTx.arkTx) = some [1, 2, 7] ∧
    (approvePendingTransaction envCpFail demoPending ⟨"A"⟩).result = .SignFailed ∧
    ((approvePendingTransaction envCpFail demoPending ⟨"A"⟩).contract.pendingTransaction.map
      fun pt => pt.partialTx.arkTx) = some [1, 2, 7, 7] ∧
    (approvePendingTransaction envCpFail demoPending ⟨"A"⟩).contract ≠ demoPending := by
  decide

/-- C2 as amended: if signing the spend transaction fails, the whole record
is left exactly as it was; but if signing a checkpoint fails after the
spend transaction was signed, the stored spend-transaction bytes have
already been updated, while the checkpoints, approvals, rejections, and
status are unchanged; in neither failure case is any submit performed. -/
theorem approve_failure_partial_update (env : Env) (c : EscrowContract)
    (w : WalletInfo) (pt : PendingTransaction)
    (hp : c.pendingTransaction = some pt)
    (hreq : w.pubkey ∈ pt.partialTx.requiredSigners)
    (happ : w.pubkey ∉ pt.partialTx.approvals) :
    (env.signArk w.pubkey pt.partialTx.arkTx = none →
      approvePendingTransaction env c w =
        { contract := c, result := .SignFailed, submitCalls := 0, finalizeCalls := 0 }) ∧
    (∀ sa, env.signArk w.pubkey pt.partialTx.arkTx = some sa →
      signAllCheckpoints env w.pubkey pt.partialTx.checkpoints = none →
      approvePendingTransaction env c w =
        { contract :=
            { c with pendingTransaction :=
                (some { pt with partialTx := { pt.partialTx with arkTx := sa } }) },
          result := .SignFailed, submitCalls := 0, finalizeCalls := 0 }) := by
  rcases c with ⟨cb, cs, ca, cad, cpt⟩
  obtain rfl : cpt = some pt := hp
  constructor
  · intro hsign
    have hs : signTransactionsForUser env w.pubkey pt.partialTx = (pt.partialTx, false) := by
      simp [signTransactionsForUser, hsign]
    simp [approvePendingTransaction, hreq, happ, hs]
  · intro sa hsign hcps
    have hs : signTransactionsForUser env w.pubkey pt.partialTx =
        ({ pt.partialTx with arkTx := sa }, false) := by
      simp [signTransactionsForUser, hsign, hcps]
    simp [approvePendingTransaction, hreq, happ, hs]

/-- Witness instantiating the amended C2: checkpoint signing fails for "A"
on the demo pending release, and the failed call leaves the record with the
re-signed spend-transaction bytes but everything else unchanged. -/
theorem approve_failure_partial_update_witness :
    approvePendingTransaction envCpFail demoPending ⟨"A"⟩ =
      { contract :=
          { demoPending with pendingTransaction :=
              (some { action := "release", initiator := "S", timestamp := 3,
                      status := .pending_cosign,
                      partialTx := { demoPartialTx with arkTx := [1, 2, 7, 7] } }) },
        result := .SignFailed, submitCalls := 0, finalizeCalls := 0 } :=
  (approve_failure_partial_update envCpFail demoPending ⟨"A"⟩ _ rfl (by decide)
    (by decide)).2 [1, 2, 7, 7] rfl rfl

/-- C3: after the signing phase of a successful approve, the completion
condition is recomputed by set membership over
`requiredSigners ++ [initiator]` (so arrival order is irrelevant); when it
does not yet hold, no submit occurs and the record keeps waiting; when it
holds, exactly one submit is performed — on submit+finalize success the
pending transaction is cleared to none (and any further approve call finds
no pending transaction, so no second submit+finalize pair can occur), and
on submit or finalize failure the record stays with all collected
signatures and its `pending_cosign` status retained. -/
theorem approve_completion_execution (env : Env) (c : EscrowContract)
    (w : WalletInfo) (pt : PendingTransaction) (sa : List Nat)
    (cps : List (List Nat))
    (hp : c.pendingTransaction = some pt)
    (hstatus : pt.status = .pending_cosign)
    (hreq : w.pubkey ∈ pt.partialTx.requiredSigners)
    (happ : w.pubkey ∉ pt.partialTx.approvals)
    (hsign : env.signArk w.pubkey pt.partialTx.arkTx = some sa)
    (hcps : signAllCheckpoints env w.pubkey pt.partialTx.checkpoints = some cps) :
    (((pt.partialTx.requiredSigners ++ [pt.initiator]).all
        (fun q => q ∈ pt.partialTx.approvals ++ [w.pubkey])) = true ↔
      ∀ q ∈ pt.partialTx.requiredSigners ++ [pt.initiator],
        q ∈ pt.partialTx.approvals ++ [w.pubkey]) ∧
    (((pt.partialTx.requiredSigners ++ [pt.initiator]).all
        (fun q => q ∈ pt.partialTx.approvals ++ [w.pubkey])) = false →
      approvePendingTransaction env c w =
        { contract :=
            { c with pendingTransaction :=
                (some { pt with partialTx :=
                  ({ pt.partialTx with
                      arkTx := sa
                      checkpoints := cps
                      approvals := pt.partialTx.approvals ++ [w.pubkey] }) }) },
          result := .WaitingMore, submitCalls := 0, finalizeCalls := 0 }) ∧
    (((pt.partialTx.requiredSigners ++ [pt.initiator]).all
        (fun q => q ∈ pt.partialTx.approvals ++ [w.pubkey])) = true →
      env.submitTx sa cps = none →
      approvePendingTransaction env c w =
        { contract :=
            { c with pendingTransaction :=
                (some { pt with partialTx :=
                  ({ pt.partialTx with
                      arkTx := sa
                      checkpoints := cps
                      approvals := pt.partialTx.approvals ++ [w.pubkey] }) }) },
          result := .ExecuteFailed, submitCalls := 1, finalizeCalls := 0 }) ∧
    (((pt.partialTx.requiredSigners ++ [pt.initiator]).all
        (fun q => q ∈ pt.partialTx.approvals ++ [w.pubkey])) = true →
      ∀ txid, env.submitTx sa cps = some txid → env.finalizeTx txid cps = none →
      approvePendingTransaction env c w =
        { contract :=
            { c with pendingTransaction :=
                (some { pt with partialTx :=
                  ({ pt.partialTx with
                      arkTx := sa
                      checkpoints := cps
                      approvals := pt.partialTx.approvals ++ [w.pubkey] }) }) },
          result := .ExecuteFailed, submitCalls := 1, finalizeCalls := 1 }) ∧
    (((pt.partialTx.requiredSigners ++ [pt.initiator]).all
        (fun q => q ∈ pt.partialTx.approvals ++ [w.pubkey])) = true →
      ∀ txid, env.submitTx sa cps = some txid → env.finalizeTx txid cps = some () →
      approvePendingTransaction env c w =
        { contract := { c with pendingTransaction := none },
          result := .Executed, submitCalls := 1, finalizeCalls := 1 }) ∧
    (({ pt with partialTx :=
         ({ pt.partialTx with
             arkTx := sa
             checkpoints := cps
             approvals := pt.partialTx.approvals ++ [w.pubkey] }) }).status
       = .pending_cosign) ∧
    (∀ (env2 : Env) (w2 : WalletInfo) (cx : EscrowContract),
      cx.pendingTransaction = none →
      approvePendingTransaction env2 cx w2 =
        { contract := cx, result := .NoPending, submitCalls := 0, finalizeCalls := 0 }) := by
  rcases c with ⟨cb, cs, ca, cad, cpt⟩
  obtain rfl : cpt = some pt := hp
  have hs : signTransactionsForUser env w.pubkey pt.partialTx =
      ({ pt.partialTx with arkTx := sa, checkpoints := cps }, true) := by
    simp [signTransactionsForUser, hsign, hcps]
  refine ⟨?_, ?_, ?_, ?_, ?_, ?_, ?_⟩
  · simp only [List.all_eq_true, decide_eq_true_eq, List.mem_append,
      List.mem_singleton]
  · intro hdone
    have hd := hdone
    simp [List.all_eq_true] at hd
    simp [approvePendingTransaction, hreq, happ, hs]
    intro h1 h2
    rcases hd h1 with ⟨hn1, hn2⟩
    rcases h2 with h | h
    · exact absurd h hn1
    · exact absurd h hn2
  · intro hdone hsub
    have hd := hdone
    simp [List.all_eq_true] at hd
    simp [approvePendingTransaction, hreq, happ, hs,
      executeMultiSigTransaction, hsub]
    exact ⟨hd.1, fun hn => hd.2.resolve_left hn⟩
  · intro hdone txid hsub hfin
    have hd := hdone
    simp [List.all_eq_true] at hd
    simp [approvePendingTransaction, hreq, happ, hs,
      executeMultiSigTransaction, hsub, hfin]
    exact ⟨hd.1, fun hn => hd.2.resolve_left hn⟩
  · intro hdone txid hsub hfin
    have hd := hdone
    simp [List.all_eq_true] at hd
    simp [approvePendingTransaction, hreq, happ, hs,
      executeMultiSigTransaction, hsub, hfin]
    exact ⟨hd.1, fun hn => hd.2.resolve_left hn⟩
  · simpa using hstatus
  · intro env2 w2 cx hcx
    simp [approvePendingTransaction, hcx]

/-- Witness instantiating C3 at the demo pending release: "A" is the last
required signer, all collaborator calls succeed, and the approve call
executes with exactly one submit and one finalize, clearing the pending
transaction. -/
theorem approve_completion_execution_witness :
    approvePendingTransaction envOK demoPending ⟨"A"⟩ =
      { contract := { demoPending with pendingTransaction := none },
        result := .Executed, submitCalls := 1, finalizeCalls := 1 } :=
  (approve_completion_execution envOK demoPending ⟨"A"⟩ _ [1, 2, 7, 7]
    [[3, 8, 8], [4, 8, 8]] rfl rfl (by decide) (by decide) rfl
    rfl).2.2.2.2.1 (by decide) "txid1" rfl rfl

/-- C4: the `fund` branch of `executeContractAction` runs before any
authorization concern and never consults `getRequiredSignersForAction`
(whose own table would resolve empty for a non-buyer): a seller-initiated
fund on an unfunded contract performs the funding transfer instead of
failing `NotAuthorized`, and on a funded contract fails `AlreadyFunded`;
the contract record is unchanged either way. -/
theorem fund_bypasses_authorization :
    getRequiredSignersForAction "fund" demoContract ⟨"S"⟩ = [] ∧
    getUserRole demoContract "S" = some "seller" ∧
    executeContractAction envNoFunds demoContract "fund" ⟨"S"⟩ 0 =
      (demoContract, .FundingSent) ∧
    executeContractAction envOK demoContract "fund" ⟨"S"⟩ 0 =
      (demoContract, .AlreadyFunded) := by
  decide

/-- The co-signing membership invariant: every collected approval is a
required signer or the initiator. -/
def PendingInv : Option PendingTransaction → Prop
  | none => True
  | some pt => ∀ x ∈ pt.partialTx.approvals,
      x ∈ pt.partialTx.requiredSigners ∨ x = pt.initiator

/-- `approvePendingTransaction` preserves the co-signing membership
invariant. -/
lemma approve_preserves_PendingInv (env : Env) (w : WalletInfo)
    (c : EscrowContract) (h : PendingInv c.pendingTransaction) :
    PendingInv (approvePendingTransaction env c w).contract.pendingTransaction := by
  cases hp : c.pendingTransaction with
  | none =>
    have hcon : (approvePendingTransaction env c w).contract = c := by
      simp [approvePendingTransaction, hp]
    rw [hcon, hp]
    trivial
  | some pt =>
    rw [hp] at h
    by_cases hreq : w.pubkey ∈ pt.partialTx.requiredSigners
    · by_cases happ : w.pubkey ∈ pt.partialTx.approvals
      · have hcon : (approvePendingTransaction env c w).contract = c := by
          simp [approvePendingTransaction, hp, hreq, happ]
        rw [hcon, hp]
        exact h
      · cases hsgn : signTransactionsForUser env w.pubkey pt.partialTx with
        | mk p1 ok =>
          have hfields := signTransactionsForUser_fields env w.pubkey pt.partialTx
          rw [hsgn] at hfields
          obtain ⟨hv, hr, hi, ha, hj⟩ := hfields
          cases ok with
          | false =>
            have hcon : (approvePendingTransaction env c w).contract =
                { c with pendingTransaction := some { pt with partialTx := p1 } } := by
              simp [approvePendingTransaction, hp, hreq, happ, hsgn]
            rw [hcon]
            show ∀ x ∈ p1.approvals, x ∈ p1.requiredSigners ∨ x = pt.initiator
            rw [ha, hr]
            exact h
          | true =>
            have hinv2 : ∀ x ∈ p1.approvals ++ [w.pubkey],
                x ∈ p1.requiredSigners ∨ x = pt.initiator := by
              intro x hx
              rcases List.mem_append.mp hx with hx | hx
              · rw [ha] at hx
                rw [hr]
                exact h x hx
              · rw [List.mem_singleton] at hx
                subst hx
                rw [hr]
                exact Or.inl hreq
            have hres : (approvePendingTransaction env c w).contract =
                { c with pendingTransaction := some { pt with partialTx :=
                    { p1 with approvals := p1.approvals ++ [w.pubkey] } } } ∨
                (approvePendingTransaction env c w).contract =
                { c with pendingTransaction := none } := by
              have hguard1 : ¬ (w.pubkey ∉ pt.partialTx.requiredSigners) :=
                not_not_intro hreq
              simp only [approvePendingTransaction, hp, hsgn, if_neg hguard1,
                if_neg happ]
              rcases executeMultiSigTransaction_contract env
                  { c with pendingTransaction := some { pt with partialTx :=
                      { p1 with approvals := p1.approvals ++ [w.pubkey] } } } with
                he | he
              · split
                · rw [he]
                  exact Or.inl rfl
                · exact Or.inl rfl
              · split
                · rw [he]
                  exact Or.inr rfl
                · exact Or.inl rfl
            rcases hres with hcon | hcon
            · rw [hcon]
              exact hinv2
            · rw [hcon]
              trivial
    · have hcon : (approvePendingTransaction env c w).contract = c := by
        simp [approvePendingTransaction, hp, hreq]
      rw [hcon, hp]
      exact h

/-- `rejectPendingTransaction` preserves the co-signing membership
invariant. -/
lemma reject_preserves_PendingInv (w : WalletInfo) (c : EscrowContract)
    (h : PendingInv c.pendingTransaction) :
    PendingInv (rejectPendingTransaction c w).1.pendingTransaction := by
  cases hp : c.pendingTransaction with
  | none =>
    have hcon : (rejectPendingTransaction c w).1 = c := by
      simp [rejectPendingTransaction, hp]
    rw [hcon, hp]
    trivial
  | some pt =>
    rw [hp] at h
    by_cases hreq : w.pubkey ∈ pt.partialTx.requiredSigners
    · by_cases hrej : w.pubkey ∈ pt.partialTx.rejections
      · have hcon : (rejectPendingTransaction c w).1 =
            { c with pendingTransaction :=
                (some { pt with partialTx := pt.partialTx, status := .rejected }) } := by
          simp [rejectPendingTransaction, hp, hreq, hrej]
        rw [hcon]
        show ∀ x ∈ pt.partialTx.approvals,
          x ∈ pt.partialTx.requiredSigners ∨ x = pt.initiator
        exact h
      · have hcon : (rejectPendingTransaction c w).1 =
            { c with pendingTransaction :=
                (some { pt with
                  partialTx := ({ pt.partialTx with
                    rejections := pt.partialTx.rejections ++ [w.pubkey] })
                  status := .rejected }) } := by
          simp [rejectPendingTransaction, hp, hreq, hrej]
        rw [hcon]
        show ∀ x ∈ pt.partialTx.approvals,
          x ∈ pt.partialTx.requiredSigners ∨ x = pt.initiator
        exact h
    · have hcon : (rejectPendingTransaction c w).1 = c := by
        simp [rejectPendingTransaction, hp, hreq]
      rw [hcon, hp]
      exact h

/-- Any sequence of approve and reject operations preserves the co-signing
membership invariant. -/
lemma applyOps_preserves_PendingInv (ops : List Op) (c : EscrowContract)
    (h : PendingInv c.pendingTransaction) :
    PendingInv (applyOps ops c).pendingTransaction := by
  induction ops generalizing c with
  | nil => exact h
  | cons o rest ih =>
    cases o with
    | approve env w =>
      exact ih _ (approve_preserves_PendingInv env w c h)
    | reject w =>
      exact ih _ (reject_preserves_PendingInv w c h)

/-- Inversion of `executeContractAction` at a `Created` result: the call
stored a fresh pending transaction of the creation shape over the
unchanged contract. -/
lemma executeContractAction_created (env : Env) (c : EscrowContract)
    (action : String) (w : WalletInfo) (ts : Nat) (c1 : EscrowContract)
    (h : executeContractAction env c action w ts = (c1, .Created)) :
    ∃ pt1, c1 = { c with pendingTransaction := some pt1 } ∧
      pt1.initiator = w.pubkey ∧
      pt1.partialTx.approvals = [w.pubkey] ∧
      pt1.partialTx.requiredSigners =
        (getRequiredSignersForAction action c w).filter
          (fun pubkey => pubkey ≠ w.pubkey) ∧
      pt1.partialTx.rejections = [] ∧
      pt1.status = .pending_cosign := by
  unfold executeContractAction at h
  dsimp only at h
  repeat' split at h
  all_goals try simp at h
  exact ⟨_, h.symm, rfl, rfl, rfl, rfl, rfl⟩

/-- C5: after every successful create, the stored approvals are exactly
the initiator (in particular disjoint from the stored required signers,
which exclude the initiator), and along any subsequent sequence of approve
and reject operations every collected approval belongs to
`requiredSigners ∪ initiator`. -/
theorem creation_approval_invariant (env0 : Env) (c0 : EscrowContract)
    (action : String) (w : WalletInfo) (ts : Nat) (c1 : EscrowContract)
    (h : executeContractAction env0 c0 action w ts = (c1, .Created)) :
    (∀ pt, c1.pendingTransaction = some pt →
      pt.partialTx.approvals = [pt.initiator] ∧
      ∀ x ∈ pt.partialTx.requiredSigners, x ∉ pt.partialTx.approvals) ∧
    ∀ ops : List Op, PendingInv (applyOps ops c1).pendingTransaction := by
  obtain ⟨pt1, hc1, hinit, happ, hreq, hrej, hstat⟩ :=
    executeContractAction_created env0 c0 action w ts c1 h
  subst hc1
  constructor
  · intro pt hpt
    obtain rfl : pt1 = pt := Option.some.inj hpt
    constructor
    · rw [happ, hinit]
    · intro x hx
      rw [hreq] at hx
      rw [happ]
      rw [List.mem_filter] at hx
      rw [List.mem_singleton]
      simpa using hx.2
  · intro ops
    apply applyOps_preserves_PendingInv
    show ∀ x ∈ pt1.partialTx.approvals,
      x ∈ pt1.partialTx.requiredSigners ∨ x = pt1.initiator
    intro x hx
    rw [happ, List.mem_singleton] at hx
    subst hx
    rw [hinit]
    exact Or.inr rfl

/-- Witness instantiating C5: a seller-initiated release on the demo
contract creates `demoPending`, and the invariant holds after a reject by
"A" followed by an approve by "A". -/
theorem creation_approval_invariant_witness :
    PendingInv (applyOps [Op.reject ⟨"A"⟩, Op.approve envOK ⟨"A"⟩]
      demoPending).pendingTransaction :=
  (creation_approval_invariant envOK demoContract "release" ⟨"S"⟩ 3 demoPending
    (by decide)).2 [Op.reject ⟨"A"⟩, Op.approve envOK ⟨"A"⟩]

/-- `approvePendingTransaction` never rewrites the status of an existing
pending transaction: it leaves the record, updates only `partialTx`, or
clears the record entirely. -/
lemma approve_status_preserved (env : Env) (w : WalletInfo)
    (c : EscrowContract) (pt : PendingTransaction)
    (hp : c.pendingTransaction = some pt) :
    (approvePendingTransaction env c w).contract.pendingTransaction = none ∨
    ∃ pt2, (approvePendingTransaction env c w).contract.pendingTransaction = some pt2 ∧
      pt2.status = pt.status := by
  by_cases hreq : w.pubkey ∈ pt.partialTx.requiredSigners
  · by_cases happ : w.pubkey ∈ pt.partialTx.approvals
    · exact Or.inr ⟨pt, by simp [approvePendingTransaction, hp, hreq, happ], rfl⟩
    · cases hsgn : signTransactionsForUser env w.pubkey pt.partialTx with
      | mk p1 ok =>
        cases ok with
        | false =>
          exact Or.inr ⟨{ pt with partialTx := p1 },
            by simp [approvePendingTransaction, hp, hreq, happ, hsgn], rfl⟩
        | true =>
          have hres : (approvePendingTransaction env c w).contract =
              { c with pendingTransaction := some { pt with partialTx :=
                  { p1 with approvals := p1.approvals ++ [w.pubkey] } } } ∨
              (approvePendingTransaction env c w).contract =
              { c with pendingTransaction := none } := by
            have hguard1 : ¬ (w.pubkey ∉ pt.partialTx.requiredSigners) :=
              not_not_intro hreq
            simp only [approvePendingTransaction, hp, hsgn, if_neg hguard1,
              if_neg happ]
            rcases executeMultiSigTransaction_contract env
                { c with pendingTransaction := some { pt with partialTx :=
                    { p1 with approvals := p1.approvals ++ [w.pubkey] } } } with
              he | he
            · split
              · rw [he]
                exact Or.inl rfl
              · exact Or.inl rfl
            · split
              · rw [he]
                exact Or.inr rfl
              · exact Or.inl rfl
          rcases hres with hcon | hcon
          · exact Or.inr ⟨{ pt with partialTx :=
                { p1 with approvals := p1.approvals ++ [w.pubkey] } },
              by rw [hcon], rfl⟩
          · exact Or.inl (by rw [hcon])
  · exact Or.inr ⟨pt, by simp [approvePendingTransaction, hp, hreq], rfl⟩

/-- Counterexample to C9: in the timed system, after "A" rejects the demo
pending release at time 0 the status is rejected and the clear is scheduled
for `graceDelay`, yet an immediate approve by "A" (possible because approve
has no rejected-status or rejections guard) executes and clears the record
at time 0, before the grace delay has elapsed — the record does not become
absent only after the delay. -/
theorem reject_grace_delay_cex :
    ((sysRun [.rejectStep ⟨"A"⟩] ⟨demoPending, 0, none⟩).contract.pendingTransaction.map
      fun pt => pt.status) = some .rejected ∧
    (sysRun [.rejectStep ⟨"A"⟩] ⟨demoPending, 0, none⟩).clearAt = some graceDelay ∧
    (sysRun [.rejectStep ⟨"A"⟩, .approveStep envOK ⟨"A"⟩]
      ⟨demoPending, 0, none⟩).contract.pendingTransaction = none ∧
    (sysRun [.rejectStep ⟨"A"⟩, .approveStep envOK ⟨"A"⟩]
      ⟨demoPending, 0, none⟩).now = 0 ∧
    0 < graceDelay := by
  decide

/-- C9 as amended: a successful reject sets the status to rejected
immediately (same clock instant) and schedules the clear for
`graceDelay` ms later; the scheduled timer clears the record only once its
deadline has been reached; and no step ever moves a rejected pending
transaction back to a pending status — it stays rejected or becomes
absent.  (The record can, however, become absent before the delay through
the approve/execute path, which ignores the rejected status; see the
counterexample.) -/
theorem reject_timing_and_finality :
    (∀ (s : SysState) (w : WalletInfo) (pt : PendingTransaction),
      s.contract.pendingTransaction = some pt →
      w.pubkey ∈ pt.partialTx.requiredSigners →
      (∃ pt1, (sysStep (.rejectStep w) s).contract.pendingTransaction = some pt1 ∧
        pt1.status = .rejected) ∧
      (sysStep (.rejectStep w) s).clearAt = some (s.now + graceDelay) ∧
      (sysStep (.rejectStep w) s).now = s.now) ∧
    (∀ (s : SysState) (t : Nat), s.clearAt = some t → ¬ t ≤ s.now →
      sysStep .timerFire s = s) ∧
    (∀ (s : SysState) (t : Nat), s.clearAt = some t → t ≤ s.now →
      (sysStep .timerFire s).contract.pendingTransaction = none) ∧
    (∀ (st : SysStep) (s : SysState) (pt : PendingTransaction),
      s.contract.pendingTransaction = some pt → pt.status = .rejected →
      (sysStep st s).contract.pendingTransaction = none ∨
      ∃ pt2, (sysStep st s).contract.pendingTransaction = some pt2 ∧
        pt2.status = .rejected) := by
  refine ⟨?_, ?_, ?_, ?_⟩
  · intro s w pt hp hreq
    by_cases hrej : w.pubkey ∈ pt.partialTx.rejections
    · refine ⟨⟨{ pt with partialTx := pt.partialTx, status := .rejected }, ?_, rfl⟩, ?_, rfl⟩
      · simp [sysStep, rejectPendingTransaction, hp, hreq, hrej]
      · simp [sysStep, rejectPendingTransaction, hp, hreq, hrej]
    · refine ⟨⟨{ pt with
          partialTx := ({ pt.partialTx with
            rejections := pt.partialTx.rejections ++ [w.pubkey] })
          status := .rejected }, ?_, rfl⟩, ?_, rfl⟩
      · simp [sysStep, rejectPendingTransaction, hp, hreq, hrej]
      · simp [sysStep, rejectPendingTransaction, hp, hreq, hrej]
  · intro s t hclear hnot
    simp [sysStep, hclear, hnot]
  · intro s t hclear ht
    simp [sysStep, hclear, ht]
  · intro st s pt hp hstat
    cases st with
    | approveStep env w =>
      rcases approve_status_preserved env w s.contract pt hp with hn | ⟨pt2, h2, hs2⟩
      · exact Or.inl hn
      · exact Or.inr ⟨pt2, h2, by rw [hs2, hstat]⟩
    | rejectStep w =>
      by_cases hreq : w.pubkey ∈ pt.partialTx.requiredSigners
      · by_cases hrej : w.pubkey ∈ pt.partialTx.rejections
        · exact Or.inr ⟨{ pt with partialTx := pt.partialTx, status := .rejected },
            by simp [sysStep, rejectPendingTransaction, hp, hreq, hrej], rfl⟩
        · exact Or.inr ⟨{ pt with
              partialTx := ({ pt.partialTx with
                rejections := pt.partialTx.rejections ++ [w.pubkey] })
              status := .rejected },
            by simp [sysStep, rejectPendingTransaction, hp, hreq, hrej], rfl⟩
      · exact Or.inr ⟨pt, by simp [sysStep, rejectPendingTransaction, hp, hreq], hstat⟩
    | tick dt =>
      exact Or.inr ⟨pt, by simpa [sysStep] using hp, hstat⟩
    | timerFire =>
      cases hclear : s.clearAt with
      | none => exact Or.inr ⟨pt, by simpa [sysStep, hclear] using hp, hstat⟩
      | some t =>
        by_cases ht : t ≤ s.now
        · exact Or.inl (by simp [sysStep, hclear, ht])
        · exact Or.inr ⟨pt, by simpa [sysStep, hclear, ht] using hp, hstat⟩

/-- Witness instantiating the amended C9: "A" rejects the demo pending
release at time 0 — the status is rejected at once and the clear is
scheduled for time `graceDelay`. -/
theorem reject_timing_and_finality_witness :
    (∃ pt1, (sysStep (.rejectStep ⟨"A"⟩)
        ⟨demoPending, 0, none⟩).contract.pendingTransaction = some pt1 ∧
      pt1.status = .rejected) ∧
    (sysStep (.rejectStep ⟨"A"⟩) ⟨demoPending, 0, none⟩).clearAt =
      some (0 + graceDelay) ∧
    (sysStep (.rejectStep ⟨"A"⟩) ⟨demoPending, 0, none⟩).now = 0 :=
  reject_timing_and_finality.1 ⟨demoPending, 0, none⟩ ⟨"A"⟩ _ rfl (by decide)

/-- C10: `executeContractAction` never checks for an existing pending
transaction: with funds present, an authorized initiator and working
collaborators, a non-fund action on a contract that already carries a
pending transaction succeeds and overwrites it with the fresh record —
whose approvals are just the initiator — silently discarding the previous
approvals, rejections and partially signed bytes. -/
theorem create_overwrites_pending (env : Env) (c : EscrowContract)
    (action : String) (w : WalletInfo) (ts : Nat) (pt0 : PendingTransaction)
    (vtxo : Vtxo) (rest : List Vtxo) (ark sa : List Nat)
    (cps scps : List (List Nat))
    (hpending : c.pendingTransaction = some pt0)
    (hfund : action ≠ "fund")
    (hv : env.vtxos = vtxo :: rest)
    (hrs : getRequiredSignersForAction action c w ≠ [])
    (hbuild : createEscrowTransaction env c action vtxo = some (ark, cps))
    (hsign : env.signArk w.pubkey ark = some sa)
    (hcps : signAllCheckpoints env w.pubkey cps = some scps) :
    executeContractAction env c action w ts =
      ({ c with pendingTransaction :=
          (some (mkPendingTransaction action w.pubkey ts vtxo sa scps
            (getRequiredSignersForAction action c w))) }, .Created) ∧
    (mkPendingTransaction action w.pubkey ts vtxo sa scps
      (getRequiredSignersForAction action c w)).partialTx.approvals = [w.pubkey] := by
  refine ⟨?_, rfl⟩
  simp [executeContractAction, hfund, hv, hrs, hbuild, hsign, hcps]

/-- Witness instantiating C10: a seller-initiated release on the demo
contract that already carries a pending transaction succeeds and replaces
the pending record with the fresh one. -/
theorem create_overwrites_pending_witness :
    executeContractAction envOK demoPending "release" ⟨"S"⟩ 9 =
      ({ demoPending with pendingTransaction :=
          (some (mkPendingTransaction "release" "S" 9 ⟨"f0", 0, 1000⟩ [1, 2, 7]
            [[3, 8], [4, 8]] (getRequiredSignersForAction "release" demoPending ⟨"S"⟩))) },
        .Created) ∧
    (mkPendingTransaction "release" "S" 9 ⟨"f0", 0, 1000⟩ [1, 2, 7] [[3, 8], [4, 8]]
      (getRequiredSignersForAction "release" demoPending ⟨"S"⟩)).partialTx.approvals
      = ["S"] :=
  create_overwrites_pending envOK demoPending "release" ⟨"S"⟩ 9 _ ⟨"f0", 0, 1000⟩ []
    [1, 2] [1, 2, 7] [[3], [4]] [[3, 8], [4, 8]] rfl (by decide) rfl (by decide)
    rfl rfl rfl

end ArkEscrow
